/-
Verification of the open_sensor_platform ingestion server (src/main.go,
src/storage.go) against its specification.

The embedding models the primary variant of src/main.go (the part before
the legacy duplicate): the tick codec (NewTick, decodeTemperature,
formatBatteryVoltage), the Redis-backed time-series / directory stores
(ZADD / ZREVRANGE / ZCARD / HSET / HGET / SADD at the level of the data
they hold), and the ingestion pipeline (ProcessTicks / processTick).

Modelling conventions:
- Go strings are byte sequences; Lean strings are char sequences. All wire
  records in this protocol are ASCII, where the two coincide.
- Go float64 arithmetic is modelled by Rat. Every value arising here
  (sums of the weights 0.5..64, millivolt/1000 quotients, epoch seconds)
  is exactly representable in float64, so the embedding is exact.
- strconv.ParseInt(s, 10, 64) is modelled by goParseInt64, Go
  time.Parse("2006-1-2 15:4:5", s) by goTimeParse, both after the Go
  library sources: 4-digit year, 1-2 digit month/day/hour/minute/second
  with range checks, exact separators, no trailing text.
- Redis is modelled by explicit in-memory data: a sorted set is an
  association list member ↦ score (ZADD updates the score of an existing
  member, ZREVRANGE orders by score, ties broken by member string,
  descending), a hash is an association list, a set is a duplicate-free
  list. Store unavailability is out of scope: the store is modelled as
  always reachable, so Save/HSET/SADD never fail.
- A Go runtime panic (index out of range, slice bounds) is a distinct
  outcome `crashed`, separate from a returned error.
-/

import Mathlib

namespace OSP

/-! ## Go integer parsing: strconv.ParseInt(s, 10, 64) -/

/-- Numeric value of a decimal digit character, none for non-digits. -/
def digitVal (c : Char) : Option Nat :=
  if '0' ≤ c ∧ c ≤ '9' then some (c.toNat - '0'.toNat) else none

/-- The digit-accumulation loop of Go's strconv: error on the first
non-digit char, else the decimal value. -/
def digitsValGo (acc : Nat) : List Char → Option Nat
  | [] => some acc
  | c :: rest =>
    match digitVal c with
    | some d => digitsValGo (acc * 10 + d) rest
    | none => none

/-- Decimal numeral value; none if empty or any char is not a digit. -/
def digitsVal (l : List Char) : Option Nat :=
  if l.isEmpty then none else digitsValGo 0 l

/-- The sign application and int64 range check of strconv.ParseInt. -/
def signedResult (neg : Bool) (n : Nat) : Option Int :=
  let v : Int := if neg then -(n : Int) else (n : Int)
  if -(2 ^ 63) ≤ v ∧ v < 2 ^ 63 then some v else none

/-- strconv.ParseInt(s, 10, 64): optional sign, one or more decimal
digits, result within the int64 range. -/
def goParseInt64 (s : String) : Option Int :=
  match s.data with
  | [] => none
  | c :: rest =>
    if c = '-' then (digitsVal rest).bind (signedResult true)
    else if c = '+' then (digitsVal rest).bind (signedResult false)
    else (digitsVal (c :: rest)).bind (signedResult false)

/-! ## Go time parsing: time.Parse("2006-1-2 15:4:5", s) -/

/-- A parsed wall-clock timestamp, second resolution (the layout has no
time zone, so Go interprets it as UTC). -/
structure DateTime where
  year : Nat
  month : Nat
  day : Nat
  hour : Nat
  minute : Nat
  second : Nat
deriving DecidableEq, Repr

/-- Go's getnum with fixed = false: one digit, or two when the next
char is also a digit. Returns the value and the remaining chars. -/
def getnum2 (l : List Char) : Option (Nat × List Char) :=
  match l with
  | [] => none
  | c :: rest =>
    match digitVal c with
    | none => none
    | some d1 =>
      match rest with
      | c2 :: rest2 =>
        match digitVal c2 with
        | none => some (d1, rest)
        | some d2 => some (d1 * 10 + d2, rest2)
      | [] => some (d1, [])

/-- Exactly four digits (Go's stdLongYear). -/
def getnum4 (l : List Char) : Option (Nat × List Char) :=
  match l with
  | a :: b :: c :: d :: rest =>
    match digitVal a, digitVal b, digitVal c, digitVal d with
    | some x, some y, some z, some w => some (((x * 10 + y) * 10 + z) * 10 + w, rest)
    | _, _, _, _ => none
  | _ => none

/-- Expect a literal separator char. -/
def expectChar (c : Char) (l : List Char) : Option (List Char) :=
  match l with
  | x :: rest => if x = c then some rest else none
  | [] => none

/-- Go time.daysIn: days in a month, with the Gregorian leap rule. -/
def daysIn (month year : Nat) : Nat :=
  if month = 2 then
    if year % 4 = 0 ∧ (year % 100 ≠ 0 ∨ year % 400 = 0) then 29 else 28
  else if month = 4 ∨ month = 6 ∨ month = 9 ∨ month = 11 then 30
  else 31

/-- time.Parse with layout "2006-1-2 15:4:5": 4-digit year, '-',
1-2 digit month, '-', 1-2 digit day, ' ', 1-2 digit hour, ':',
1-2 digit minute, ':', 1-2 digit second, end of input; month, day
(against the month), hour, minute and second are range-checked. -/
def goTimeParse (s : String) : Option DateTime :=
  match getnum4 s.data with
  | none => none
  | some (y, r1) =>
    match expectChar '-' r1 with
    | none => none
    | some r2 =>
      match getnum2 r2 with
      | none => none
      | some (mo, r3) =>
        match expectChar '-' r3 with
        | none => none
        | some r4 =>
          match getnum2 r4 with
          | none => none
          | some (d, r5) =>
            match expectChar ' ' r5 with
            | none => none
            | some r6 =>
              match getnum2 r6 with
              | none => none
              | some (h, r7) =>
                match expectChar ':' r7 with
                | none => none
                | some r8 =>
                  match getnum2 r8 with
                  | none => none
                  | some (mi, r9) =>
                    match expectChar ':' r9 with
                    | none => none
                    | some r10 =>
                      match getnum2 r10 with
                      | none => none
                      | some (sec, r11) =>
                        if r11 = [] ∧ 1 ≤ mo ∧ mo ≤ 12 ∧ 1 ≤ d ∧ d ≤ daysIn mo y
                            ∧ h ≤ 23 ∧ mi ≤ 59 ∧ sec ≤ 59 then
                          some ⟨y, mo, d, h, mi, sec⟩
                        else none

/-- Days from the Unix epoch (1970-01-01) to the given civil date,
proleptic Gregorian — the arithmetic behind Go's Time.Unix. -/
def daysFromCivil (y mo d : Int) : Int :=
  let y2 : Int := if mo ≤ 2 then y - 1 else y
  let era : Int := Int.fdiv y2 400
  let yoe : Int := y2 - era * 400
  let mp : Int := if mo > 2 then mo - 3 else mo + 9
  let doy : Int := Int.fdiv (153 * mp + 2) 5 + d - 1
  let doe : Int := yoe * 365 + Int.fdiv yoe 4 - Int.fdiv yoe 100 + doy
  era * 146097 + doe - 719468

/-- Time.Unix(): seconds since the Unix epoch. -/
def DateTime.unix (t : DateTime) : Int :=
  daysFromCivil t.year t.month t.day * 86400
    + (t.hour : Int) * 3600 + (t.minute : Int) * 60 + (t.second : Int)

/-! ## Codec: decodeTemperature and formatBatteryVoltage -/

/-- decodeTemperature (src/main.go:581-611): bits 7..14 contribute fixed
weights 0.5,1,2,4,8,16,32,64 when set; bit 15 negates. The Go parameter
is an int32; the model takes the nonnegative bit pattern. -/
def decodeTemperature (n : Nat) : Rat :=
  let sum : Rat :=
    (if n &&& (1 <<< 7) ≠ 0 then (1 : Rat) / 2 else 0)
    + (if n &&& (1 <<< 8) ≠ 0 then (1 : Rat) else 0)
    + (if n &&& (1 <<< 9) ≠ 0 then (2 : Rat) else 0)
    + (if n &&& (1 <<< 10) ≠ 0 then (4 : Rat) else 0)
    + (if n &&& (1 <<< 11) ≠ 0 then (8 : Rat) else 0)
    + (if n &&& (1 <<< 12) ≠ 0 then (16 : Rat) else 0)
    + (if n &&& (1 <<< 13) ≠ 0 then (32 : Rat) else 0)
    + (if n &&& (1 <<< 14) ≠ 0 then (64 : Rat) else 0)
  if n &&& (1 <<< 15) ≠ 0 then -sum else sum

/-- formatBatteryVoltage (src/main.go:573-579): ParseInt then divide
by 1000. -/
def formatBatteryVoltage (input : String) : Option Rat :=
  match goParseInt64 input with
  | none => none
  | some v => some ((v : Rat) / 1000)

/-! ## Tick and its decoder NewTick -/

/-- The Tick struct (src/main.go:58-71), persisted fields only. The
derived fields Temperature and BatteryVoltageVisual are zero on every
tick that reaches Save (they are set only at read time in FindTicks on
a local copy), so they are omitted from the persisted model exactly as
Go's omitempty omits them from the marshaled JSON. -/
structure Tick where
  Datetime : DateTime
  SensorID : Int
  NextDataSession : String
  BatteryVoltage : String
  Sensor1 : String
  Sensor2 : String
  RadioQuality : String
  controllerID : String
deriving DecidableEq, Repr

/-- Outcome of NewTick: a tick, a returned error, or a Go runtime panic
(slice bounds / index out of range). -/
inductive DecodeResult where
  | ok (t : Tick)
  | decodeError
  | crashed
deriving DecidableEq, Repr

/-- strings.Split with a single-character separator: adjacent
separators yield empty fields, the empty string yields one empty
field. -/
def splitChar (sep : Char) : List Char → List (List Char)
  | [] => [[]]
  | c :: rest =>
    match splitChar sep rest with
    | [] => [[]]
    | h :: t => if c = sep then [] :: h :: t else (c :: h) :: t

/-- The fields of a record: the content between the stripped first and
last characters (`input[1:len(input)-1]`), split on ';'
(strings.Split). -/
def recordFields (input : String) : List String :=
  (splitChar ';' ((input.data.drop 1).dropLast)).map String.mk

/-- The field-consuming stage of NewTick: parse the timestamp
(parts[0]) and sensorID (parts[1]), pass parts[2..6] through, take
parts[7] as controller hint when present; accessing a field beyond the
split length is a Go index-out-of-range panic. -/
def decodeFields (parts : List String) : DecodeResult :=
  match goTimeParse (parts.headD "") with
  | none => .decodeError
  | some dt =>
    match parts.drop 1 with
    | [] => .crashed
    | p1 :: _ =>
      match goParseInt64 p1 with
      | none => .decodeError
      | some sid =>
        if parts.length < 7 then .crashed
        else .ok {
          Datetime := dt
          SensorID := sid
          NextDataSession := parts.getD 2 ""
          BatteryVoltage := parts.getD 3 ""
          Sensor1 := parts.getD 4 ""
          Sensor2 := parts.getD 5 ""
          RadioQuality := parts.getD 6 ""
          controllerID := if 8 ≤ parts.length then parts.getD 7 "" else "" }

/-- NewTick (src/main.go:423-448): drops the first and last character
(`input[1:len(input)-1]`, a panic when the input is shorter than 2),
splits on ';', and decodes the fields. -/
def NewTick (input : String) : DecodeResult :=
  if input.length < 2 then .crashed
  else decodeFields (recordFields input)

/-! ## JSON serialization of a tick (encoding/json on the Tick struct) -/

/-- Lower-case hex digit. -/
def hexDigit (n : Nat) : Char :=
  if n < 10 then Char.ofNat ('0'.toNat + n) else Char.ofNat ('a'.toNat + (n - 10))

/-- Go encoding/json string escaping (HTML escaping on, the default):
quote, backslash, newline/return/tab, other control chars as \u00XX,
and the HTML-sensitive chars as <, >, &. -/
def jsonEscapeChar (c : Char) : List Char :=
  if c = '"' then ['\\', '"']
  else if c = '\\' then ['\\', '\\']
  else if c = '\n' then ['\\', 'n']
  else if c = '\r' then ['\\', 'r']
  else if c = '\t' then ['\\', 't']
  else if c.toNat < 32 then
    ['\\', 'u', '0', '0', hexDigit (c.toNat / 16), hexDigit (c.toNat % 16)]
  else if c = '<' then ['\\', 'u', '0', '0', '3', 'c']
  else if c = '>' then ['\\', 'u', '0', '0', '3', 'e']
  else if c = '&' then ['\\', 'u', '0', '0', '2', '6']
  else [c]

def jsonEscape (s : String) : String :=
  String.mk (s.data.map jsonEscapeChar).flatten

def pad2 (n : Nat) : String := if n < 10 then "0" ++ toString n else toString n

def pad4 (n : Nat) : String :=
  if n < 10 then "000" ++ toString n
  else if n < 100 then "00" ++ toString n
  else if n < 1000 then "0" ++ toString n
  else toString n

/-- time.Time json marshaling: RFC 3339, UTC, no sub-second part. -/
def renderDateTime (t : DateTime) : String :=
  pad4 t.year ++ "-" ++ pad2 t.month ++ "-" ++ pad2 t.day ++ "T"
    ++ pad2 t.hour ++ ":" ++ pad2 t.minute ++ ":" ++ pad2 t.second ++ "Z"

/-- json.Marshal(tick): fields in struct order with their json tags;
the string fields carry omitempty; the unexported controllerID and the
zero-valued derived floats are not serialized. -/
def marshalTick (t : Tick) : String :=
  "\x7b\"datetime\":\"" ++ renderDateTime t.Datetime
    ++ "\",\"sensor_id\":" ++ toString t.SensorID
    ++ (if t.NextDataSession = "" then ""
        else ",\"next_data_session\":\"" ++ jsonEscape t.NextDataSession ++ "\"")
    ++ (if t.BatteryVoltage = "" then ""
        else ",\"battery_voltage\":\"" ++ jsonEscape t.BatteryVoltage ++ "\"")
    ++ (if t.Sensor1 = "" then ""
        else ",\"sensor1\":\"" ++ jsonEscape t.Sensor1 ++ "\"")
    ++ (if t.Sensor2 = "" then ""
        else ",\"sensor2\":\"" ++ jsonEscape t.Sensor2 ++ "\"")
    ++ (if t.RadioQuality = "" then ""
        else ",\"radio_quality\":\"" ++ jsonEscape t.RadioQuality ++ "\"")
    ++ "\x7d"

/-- tick.rank() (src/main.go:500-502): float64(Datetime.Unix()), exact
as an integer for every parseable date. -/
def Tick.rank (t : Tick) : Int := t.Datetime.unix

/-! ## The Redis data model -/

/-- A Redis sorted set: member ↦ score association (one entry per
member). ZADD of an existing member updates its score in place. -/
abbrev SortedSet := List (String × Int)

def zadd : SortedSet → Int → String → SortedSet
  | [], score, member => [(member, score)]
  | p :: rest, score, member =>
    if p.1 = member then (member, score) :: rest
    else p :: zadd rest score member

/-- ZCARD: number of members. -/
def zcard (s : SortedSet) : Nat := s.length

/-- Redis sorted-set order: by score ascending, ties by member string. -/
def entryLE (p q : String × Int) : Prop :=
  p.2 < q.2 ∨ (p.2 = q.2 ∧ p.1 ≤ q.1)

instance : DecidableRel entryLE := fun p q => by
  unfold entryLE; infer_instance

/-- The sorted set in descending (score, member) order, as ZREVRANGE
walks it. -/
def zrevEntries (s : SortedSet) : SortedSet :=
  (List.insertionSort entryLE s).reverse

/-- Redis start/stop index selection shared by ZREVRANGE: negative
indices count from the end, start>stop or start beyond the end give the
empty result, stop is clamped to the last element. -/
def redisSlice {α : Type} (l : List α) (start stop : Int) : List α :=
  let n : Int := l.length
  let start2 : Int := if start < 0 then max (n + start) 0 else start
  let stop2 : Int := if stop < 0 then n + stop else stop
  if start2 > stop2 ∨ start2 ≥ n then []
  else
    let stop3 : Int := min stop2 (n - 1)
    (l.drop start2.toNat).take (stop3 - start2 + 1).toNat

def zrevrangeEntries (s : SortedSet) (start stop : Int) : SortedSet :=
  redisSlice (zrevEntries s) start stop

/-- ZREVRANGE key start stop (members only, newest first). -/
def zrevrange (s : SortedSet) (start stop : Int) : List String :=
  (zrevrangeEntries s start stop).map Prod.fst

/-- Association-list lookup (Redis HGET; also locates a key's entry in
the other keyed collections). -/
def alookup {κ α : Type} [DecidableEq κ] : List (κ × α) → κ → Option α
  | [], _ => none
  | p :: rest, k => if p.1 = k then some p.2 else alookup rest k

/-- Association-list write (Redis HSET): overwrite the existing entry,
else add. -/
def aset {κ α : Type} [DecidableEq κ] : List (κ × α) → κ → α → List (κ × α)
  | [], k, v => [(k, v)]
  | p :: rest, k, v =>
    if p.1 = k then (k, v) :: rest
    else p :: aset rest k v

/-- Redis SADD on a set of strings. -/
def sadd (s : List String) (x : String) : List String :=
  if x ∈ s then s else s ++ [x]

/-- The store state touched by the ingestion pipeline: per-sensor tick
sorted sets (osp:sensor:<id>:ticks), the known-controllers set
(osp:controllers), the sensor→controller hash
(osp:sensor_to_controller), and per-controller member-sensor sets
(osp:controller:<id>:sensors). -/
structure St where
  ticks : List (Int × SortedSet)
  controllers : List String
  sensorToController : List (Int × String)
  controllerSensors : List (String × List String)
deriving DecidableEq, Repr

def emptySt : St := ⟨[], [], [], []⟩

/-- The sorted set behind keyOfSensorTicks(sensorID). -/
def St.sensorTicks (st : St) (sid : Int) : SortedSet :=
  (alookup st.ticks sid).getD []

/-- The member-sensor set behind keyOfControllerSensors(controllerID). -/
def St.members (st : St) (cid : String) : List String :=
  (alookup st.controllerSensors cid).getD []

/-- Tick.Save (src/main.go:487-498): ZADD tick.key() tick.rank()
json.Marshal(tick). -/
def saveTick (st : St) (t : Tick) : St :=
  let newSet := zadd (st.sensorTicks t.SensorID) t.rank (marshalTick t)
  { st with ticks := aset st.ticks t.SensorID newSet }

/-! ## Ingestion pipeline -/

inductive StepResult where
  | ok (st : St)
  | decodeFailed
  | crashed
deriving DecidableEq, Repr

/-- processTick (src/main.go:537-571): decode, Save, then resolve the
controller (hint, else stored association, else "1") and write back:
SADD to the controllers set, HSET the association, SADD the sensor to
the controller's member set. -/
def processTick (st : St) (s : String) : StepResult :=
  match NewTick s with
  | .crashed => .crashed
  | .decodeError => .decodeFailed
  | .ok t =>
    let st1 := saveTick st t
    let looked : String :=
      if t.controllerID = "" then
        (alookup st1.sensorToController t.SensorID).getD ""
      else t.controllerID
    let cid : String := if looked = "" then "1" else looked
    .ok { st1 with
      controllers := sadd st1.controllers cid
      sensorToController := aset st1.sensorToController t.SensorID cid
      controllerSensors := aset st1.controllerSensors cid
        (sadd (st1.members cid) (toString t.SensorID)) }

/-- Outcome of a batch, carrying the store state it left behind. Go
returns (processedCount, nil) on success and (0, err) on failure. -/
inductive BatchResult where
  | ok (st : St) (count : Nat)
  | failed (st : St)
  | crashed (st : St)
deriving DecidableEq, Repr

def BatchResult.state : BatchResult → St
  | .ok st _ => st
  | .failed st => st
  | .crashed st => st

/-- The record loop of ProcessTicks: skip empty lines, process each
record in order, abort on the first failure. -/
def processRecords (st : St) (count : Nat) : List String → BatchResult
  | [] => .ok st count
  | r :: rest =>
    if r = "" then processRecords st count rest
    else
      match processTick st r with
      | .ok st2 => processRecords st2 (count + 1) rest
      | .decodeFailed => .failed st
      | .crashed => .crashed st

/-- strings.Replace(s, "\r", "\n", -1): carriage returns become
newlines. -/
def replaceCR (l : List Char) : List Char :=
  l.map (fun c => if c = '\r' then '\n' else c)

/-- ProcessTicks (src/main.go:517-535): normalize '\r' to '\n', split
into lines, process sequentially. -/
def ProcessTicks (st : St) (tickList : String) : BatchResult :=
  processRecords st 0 ((splitChar '\n' (replaceCR tickList.data)).map String.mk)

/-! ## Query surface (FindTicks / findTicksByRange) -/

/-- The members FindTicks (src/main.go:450-485) and findTicksByRange
(src/storage.go:77-96) fetch: ZREVRANGE over the sensor's tick set,
newest first. Each returned member is one serialized tick. -/
def queryTicksByRank (st : St) (sid : Int) (startIndex stopIndex : Int) :
    List String :=
  zrevrange (st.sensorTicks sid) startIndex stopIndex

/-- ZCARD over the sensor's tick set, FindTicks' pagination total. -/
def countTicks (st : St) (sid : Int) : Nat :=
  zcard (st.sensorTicks sid)

/-! ## Derived descriptions used by the theorems -/

/-- The records a batch consists of: the non-empty lines after newline
normalization — exactly the strings the ProcessTicks loop hands to
processTick, in order. -/
def batchRecords (tickList : String) : List String :=
  ((splitChar '\n' (replaceCR tickList.data)).map String.mk).filter
    (fun r => r ≠ "")

/-- The store state left by processing a list of records that all
succeed (on a failing record it stops, leaving the state as of the
records before it). -/
def runGood (st : St) : List String → St
  | [] => st
  | r :: rest =>
    match processTick st r with
    | .ok st2 => runGood st2 rest
    | _ => st

/-- Decimal value of a digit list (most significant first). -/
def natOfDigits (l : List Char) : Nat :=
  l.foldl (fun a c => a * 10 + (c.toNat - '0'.toNat)) 0

/-- Spec-side description of "raw parses as the integer v": an optional
sign, one or more decimal digits, and the signed value within the int64
range. -/
def IsInt64NumeralWithValue (s : String) (v : Int) : Prop :=
  ∃ sign digits, s.data = sign ++ digits
    ∧ (sign = [] ∨ sign = ['+'] ∨ sign = ['-'])
    ∧ digits ≠ []
    ∧ (∀ c ∈ digits, '0' ≤ c ∧ c ≤ '9')
    ∧ v = (if sign = ['-'] then -1 else 1) * (natOfDigits digits : Int)
    ∧ -(2 ^ 63) ≤ v ∧ v < 2 ^ 63

/-! # Lemmas -/

lemma and_shiftLeft_ne_zero (n k : Nat) :
    n &&& (1 <<< k) ≠ 0 ↔ n.testBit k := by
  rw [Nat.shiftLeft_eq, one_mul, Nat.and_two_pow]
  cases h : n.testBit k <;> simp [h]

lemma decodeTemperature_testBit (n : Nat) :
    decodeTemperature n =
      (if n.testBit 15 then (-1 : Rat) else 1) *
        ((if n.testBit 7 then (1 : Rat) / 2 else 0)
          + (if n.testBit 8 then (1 : Rat) else 0)
          + (if n.testBit 9 then (2 : Rat) else 0)
          + (if n.testBit 10 then (4 : Rat) else 0)
          + (if n.testBit 11 then (8 : Rat) else 0)
          + (if n.testBit 12 then (16 : Rat) else 0)
          + (if n.testBit 13 then (32 : Rat) else 0)
          + (if n.testBit 14 then (64 : Rat) else 0)) := by
  unfold decodeTemperature
  simp only [and_shiftLeft_ne_zero]
  by_cases h : n.testBit 15 <;> simp [h]

/-! # Claim theorems -/

/-- C3: decodeTemperature returns the sum of the fixed weights
0.5, 1, 2, 4, 8, 16, 32, 64 over the set bits 7..14 (low to high),
negated iff bit 15 is set; the result never depends on bits 0..6; with
only bit 7 set it is 0.5, and with bit 15 and bits 7–14 all set it
is −127.5. -/
theorem C3_decodeTemperature :
    (∀ n : Nat, n < 2 ^ 16 →
      decodeTemperature n =
        (if n.testBit 15 then (-1 : Rat) else 1) *
          ((if n.testBit 7 then (1 : Rat) / 2 else 0)
            + (if n.testBit 8 then (1 : Rat) else 0)
            + (if n.testBit 9 then (2 : Rat) else 0)
            + (if n.testBit 10 then (4 : Rat) else 0)
            + (if n.testBit 11 then (8 : Rat) else 0)
            + (if n.testBit 12 then (16 : Rat) else 0)
            + (if n.testBit 13 then (32 : Rat) else 0)
            + (if n.testBit 14 then (64 : Rat) else 0)))
    ∧ (∀ a b : Nat, (∀ i : Nat, 7 ≤ i → a.testBit i = b.testBit i) →
        decodeTemperature a = decodeTemperature b)
    ∧ decodeTemperature 128 = 1 / 2
    ∧ decodeTemperature 65408 = -(255 / 2) := by
  refine ⟨fun n _ => decodeTemperature_testBit n, fun a b h => ?_, ?_, ?_⟩
  · rw [decodeTemperature_testBit, decodeTemperature_testBit,
      h 7 (by norm_num), h 8 (by norm_num), h 9 (by norm_num), h 10 (by norm_num),
      h 11 (by norm_num), h 12 (by norm_num), h 13 (by norm_num), h 14 (by norm_num),
      h 15 (by norm_num)]
  · norm_num [decodeTemperature_testBit,
      show (128 : Nat).testBit 7 = true from by decide,
      show (128 : Nat).testBit 8 = false from by decide,
      show (128 : Nat).testBit 9 = false from by decide,
      show (128 : Nat).testBit 10 = false from by decide,
      show (128 : Nat).testBit 11 = false from by decide,
      show (128 : Nat).testBit 12 = false from by decide,
      show (128 : Nat).testBit 13 = false from by decide,
      show (128 : Nat).testBit 14 = false from by decide,
      show (128 : Nat).testBit 15 = false from by decide]
  · norm_num [decodeTemperature_testBit,
      show (65408 : Nat).testBit 7 = true from by decide,
      show (65408 : Nat).testBit 8 = true from by decide,
      show (65408 : Nat).testBit 9 = true from by decide,
      show (65408 : Nat).testBit 10 = true from by decide,
      show (65408 : Nat).testBit 11 = true from by decide,
      show (65408 : Nat).testBit 12 = true from by decide,
      show (65408 : Nat).testBit 13 = true from by decide,
      show (65408 : Nat).testBit 14 = true from by decide,
      show (65408 : Nat).testBit 15 = true from by decide]

/-- Witness for C3 at n = 128 (bound and bit-agreement hypotheses
discharged concretely). -/
theorem C3_decodeTemperature_witness :
    decodeTemperature 128 =
      (if (128 : Nat).testBit 15 then (-1 : Rat) else 1) *
        ((if (128 : Nat).testBit 7 then (1 : Rat) / 2 else 0)
          + (if (128 : Nat).testBit 8 then (1 : Rat) else 0)
          + (if (128 : Nat).testBit 9 then (2 : Rat) else 0)
          + (if (128 : Nat).testBit 10 then (4 : Rat) else 0)
          + (if (128 : Nat).testBit 11 then (8 : Rat) else 0)
          + (if (128 : Nat).testBit 12 then (16 : Rat) else 0)
          + (if (128 : Nat).testBit 13 then (32 : Rat) else 0)
          + (if (128 : Nat).testBit 14 then (64 : Rat) else 0))
    ∧ decodeTemperature 200 = decodeTemperature 129 :=
  ⟨C3_decodeTemperature.1 128 (by norm_num),
   C3_decodeTemperature.2.1 200 129 (fun i hi => by
    rcases Nat.lt_or_ge i 8 with h8 | h8
    · have hi7 : i = 7 := le_antisymm (Nat.lt_succ_iff.mp h8) hi
      subst hi7; decide
    · have h1 : (200 : Nat) < 2 ^ i :=
        lt_of_lt_of_le (by norm_num) (Nat.pow_le_pow_right (by norm_num) h8)
      have h2 : (129 : Nat) < 2 ^ i :=
        lt_of_lt_of_le (by norm_num) (Nat.pow_le_pow_right (by norm_num) h8)
      rw [Nat.testBit_eq_false_of_lt h1, Nat.testBit_eq_false_of_lt h2])⟩

lemma digitVal_eq_some_iff (c : Char) (d : Nat) :
    digitVal c = some d ↔ ('0' ≤ c ∧ c ≤ '9') ∧ d = c.toNat - '0'.toNat := by
  unfold digitVal
  by_cases h : '0' ≤ c ∧ c ≤ '9' <;> simp [h, eq_comm]

lemma digitVal_eq_none_iff (c : Char) :
    digitVal c = none ↔ ¬('0' ≤ c ∧ c ≤ '9') := by
  unfold digitVal
  by_cases h : '0' ≤ c ∧ c ≤ '9' <;> simp [h]

lemma digitsValGo_eq_some_iff (l : List Char) (a m : Nat) :
    digitsValGo a l = some m ↔
      (∀ c ∈ l, '0' ≤ c ∧ c ≤ '9')
        ∧ m = l.foldl (fun x c => x * 10 + (c.toNat - '0'.toNat)) a := by
  induction l generalizing a with
  | nil => simp [digitsValGo, eq_comm]
  | cons c rest ih =>
    simp only [digitsValGo, List.foldl_cons, List.mem_cons]
    cases hd : digitVal c with
    | none =>
      have hc := (digitVal_eq_none_iff c).mp hd
      simp only [reduceCtorEq, false_iff, not_and]
      intro hall
      exact absurd (hall c (Or.inl rfl)) hc
    | some d =>
      obtain ⟨hc, hdv⟩ := (digitVal_eq_some_iff c d).mp hd
      subst hdv
      rw [ih]
      constructor
      · rintro ⟨hall, hm⟩
        exact ⟨fun x hx => hx.elim (fun he => he ▸ hc) (hall x), hm⟩
      · rintro ⟨hall, hm⟩
        exact ⟨fun x hx => hall x (Or.inr hx), hm⟩

lemma digitsVal_eq_some_iff (l : List Char) (m : Nat) :
    digitsVal l = some m ↔
      l ≠ [] ∧ (∀ c ∈ l, '0' ≤ c ∧ c ≤ '9') ∧ m = natOfDigits l := by
  unfold digitsVal natOfDigits
  cases l with
  | nil => simp
  | cons c rest => simp [digitsValGo_eq_some_iff]

lemma signedResult_eq_some_iff (neg : Bool) (n : Nat) (v : Int) :
    signedResult neg n = some v ↔
      v = (if neg then -(n : Int) else (n : Int))
        ∧ -(2 ^ 63) ≤ v ∧ v < 2 ^ 63 := by
  simp only [signedResult]
  by_cases h : -(2 ^ 63 : Int) ≤ (if neg then -(n : Int) else (n : Int))
      ∧ (if neg then -(n : Int) else (n : Int)) < 2 ^ 63
  · rw [if_pos h]
    constructor
    · rintro hv
      injection hv with hv
      exact ⟨hv.symm, by rw [← hv]; exact h⟩
    · rintro ⟨hv, _⟩
      rw [hv]
  · rw [if_neg h]
    constructor
    · rintro hv
      cases hv
    · rintro ⟨hv, hr⟩
      rw [hv] at hr
      exact (h hr).elim

set_option maxRecDepth 4000 in
lemma goParseInt64_dash (rest : List Char) :
    goParseInt64 (String.mk ('-' :: rest)) =
      (digitsVal rest).bind (signedResult true) := rfl

set_option maxRecDepth 4000 in
lemma goParseInt64_plus (rest : List Char) :
    goParseInt64 (String.mk ('+' :: rest)) =
      (digitsVal rest).bind (signedResult false) := rfl

lemma goParseInt64_nosign (c : Char) (rest : List Char)
    (hn : c ≠ '-') (hp : c ≠ '+') :
    goParseInt64 (String.mk (c :: rest)) =
      (digitsVal (c :: rest)).bind (signedResult false) := by
  show (if c = '-' then (digitsVal rest).bind (signedResult true)
      else if c = '+' then (digitsVal rest).bind (signedResult false)
      else (digitsVal (c :: rest)).bind (signedResult false)) = _
  rw [if_neg hn, if_neg hp]

lemma goParseInt64_eq_some_iff (s : String) (v : Int) :
    goParseInt64 s = some v ↔ IsInt64NumeralWithValue s v := by
  unfold IsInt64NumeralWithValue
  obtain ⟨l⟩ := s
  cases l with
  | nil =>
    constructor
    · intro h
      exact absurd h (by simp [goParseInt64])
    · rintro ⟨sign, digits, he, _, hne, _⟩
      exact absurd (List.append_eq_nil.mp (by simpa using he.symm)).2 hne
  | cons c rest =>
    by_cases hn : c = '-'
    · subst hn
      rw [goParseInt64_dash, Option.bind_eq_some]
      constructor
      · rintro ⟨n, hd, hs2⟩
        obtain ⟨hne, hdig, hval⟩ := (digitsVal_eq_some_iff rest n).mp hd
        obtain ⟨hv, hr1, hr2⟩ := (signedResult_eq_some_iff true n v).mp hs2
        refine ⟨['-'], rest, rfl, Or.inr (Or.inr rfl), hne, hdig, ?_, hr1, hr2⟩
        rw [hv, hval]; simp
      · rintro ⟨sign, digits, he, hsign, hne, hdig, hval, hr1, hr2⟩
        rcases hsign with h0 | h0 | h0 <;> subst h0
        · simp only [List.nil_append] at he
          have hmem := hdig '-' (by rw [← he]; exact List.mem_cons_self _ _)
          exact absurd hmem (by decide)
        · simp only [List.cons_append, List.nil_append] at he
          injection he with h1 _
          exact absurd h1 (by decide)
        · simp only [List.cons_append, List.nil_append] at he
          injection he with _ h2
          subst h2
          refine ⟨natOfDigits rest,
            (digitsVal_eq_some_iff rest _).mpr ⟨hne, hdig, rfl⟩,
            (signedResult_eq_some_iff true _ v).mpr ⟨?_, hr1, hr2⟩⟩
          rw [hval]; simp
    · by_cases hp : c = '+'
      · subst hp
        rw [goParseInt64_plus, Option.bind_eq_some]
        constructor
        · rintro ⟨n, hd, hs2⟩
          obtain ⟨hne, hdig, hval⟩ := (digitsVal_eq_some_iff rest n).mp hd
          obtain ⟨hv, hr1, hr2⟩ := (signedResult_eq_some_iff false n v).mp hs2
          refine ⟨['+'], rest, rfl, Or.inr (Or.inl rfl), hne, hdig, ?_, hr1, hr2⟩
          rw [hv, hval]; simp
        · rintro ⟨sign, digits, he, hsign, hne, hdig, hval, hr1, hr2⟩
          rcases hsign with h0 | h0 | h0 <;> subst h0
          · simp only [List.nil_append] at he
            have hmem := hdig '+' (by rw [← he]; exact List.mem_cons_self _ _)
            exact absurd hmem (by decide)
          · simp only [List.cons_append, List.nil_append] at he
            injection he with _ h2
            subst h2
            refine ⟨natOfDigits rest,
              (digitsVal_eq_some_iff rest _).mpr ⟨hne, hdig, rfl⟩,
              (signedResult_eq_some_iff false _ v).mpr ⟨?_, hr1, hr2⟩⟩
            rw [hval]; simp
          · simp only [List.cons_append, List.nil_append] at he
            injection he with h1 _
            exact absurd h1 (by decide)
      · rw [goParseInt64_nosign c rest hn hp, Option.bind_eq_some]
        constructor
        · rintro ⟨n, hd, hs2⟩
          obtain ⟨hne, hdig, hval⟩ := (digitsVal_eq_some_iff _ n).mp hd
          obtain ⟨hv, hr1, hr2⟩ := (signedResult_eq_some_iff false n v).mp hs2
          refine ⟨[], c :: rest, rfl, Or.inl rfl, by simp, hdig, ?_, hr1, hr2⟩
          rw [hv, hval]; simp
        · rintro ⟨sign, digits, he, hsign, hne, hdig, hval, hr1, hr2⟩
          rcases hsign with h0 | h0 | h0 <;> subst h0
          · simp only [List.nil_append] at he
            subst he
            refine ⟨natOfDigits (c :: rest),
              (digitsVal_eq_some_iff (c :: rest) _).mpr ⟨hne, hdig, rfl⟩,
              (signedResult_eq_some_iff false _ v).mpr ⟨?_, hr1, hr2⟩⟩
            rw [hval]; simp
          · simp only [List.cons_append, List.nil_append] at he
            injection he with h1 _
            exact absurd h1 hp
          · simp only [List.cons_append, List.nil_append] at he
            injection he with h1 _
            exact absurd h1 hn

/-- C8: decodeBatteryVoltage (formatBatteryVoltage) returns
integer(raw)/1000.0 when raw parses as an int64 numeral, fails exactly
when it does not, and in particular maps "3300" to 3.3 and fails on
"abc". -/
theorem C8_formatBatteryVoltage :
    (∀ (s : String) (q : Rat), formatBatteryVoltage s = some q ↔
      ∃ n : Int, IsInt64NumeralWithValue s n ∧ q = (n : Rat) / 1000)
    ∧ (∀ s : String, formatBatteryVoltage s = none ↔
        ¬ ∃ n : Int, IsInt64NumeralWithValue s n)
    ∧ formatBatteryVoltage "3300" = some 3.3
    ∧ formatBatteryVoltage "abc" = none := by
  have hmain : ∀ (s : String) (q : Rat), formatBatteryVoltage s = some q ↔
      ∃ n : Int, IsInt64NumeralWithValue s n ∧ q = (n : Rat) / 1000 := by
    intro s q
    unfold formatBatteryVoltage
    cases hg : goParseInt64 s with
    | none =>
      simp only [reduceCtorEq, false_iff, not_exists]
      rintro n ⟨hnum, _⟩
      rw [← goParseInt64_eq_some_iff] at hnum
      exact absurd (hg ▸ hnum) (by simp)
    | some n =>
      have hnum := (goParseInt64_eq_some_iff s n).mp hg
      simp only [Option.some.injEq]
      constructor
      · rintro hq
        exact ⟨n, hnum, hq.symm⟩
      · rintro ⟨n2, hnum2, hq⟩
        rw [← goParseInt64_eq_some_iff] at hnum2
        rw [hg] at hnum2
        injection hnum2 with hn2
        rw [hq, hn2]
  refine ⟨hmain, fun s => ?_, ?_, ?_⟩
  · cases hg : formatBatteryVoltage s with
    | none =>
      simp only [true_iff]
      rintro ⟨n, hnum⟩
      have := (hmain s ((n : Rat) / 1000)).mpr ⟨n, hnum, rfl⟩
      exact absurd (hg ▸ this) (by simp)
    | some q =>
      simp only [reduceCtorEq, false_iff, not_not]
      obtain ⟨n, hnum, _⟩ := (hmain s q).mp hg
      exact ⟨n, hnum⟩
  · have : goParseInt64 "3300" = some 3300 := by decide
    unfold formatBatteryVoltage
    rw [this]
    norm_num
  · have : goParseInt64 "abc" = none := by decide
    unfold formatBatteryVoltage
    rw [this]

/-! ### Association-list and sorted-set lemmas -/

lemma alookup_aset_self {κ α : Type} [DecidableEq κ]
    (h : List (κ × α)) (k : κ) (v : α) :
    alookup (aset h k v) k = some v := by
  induction h with
  | nil => simp [aset, alookup]
  | cons p rest ih =>
    by_cases hk : p.1 = k
    · simp [aset, alookup, hk]
    · simp [aset, alookup, hk, ih]

lemma alookup_aset_ne {κ α : Type} [DecidableEq κ]
    (h : List (κ × α)) (k k2 : κ) (v : α) (hne : k2 ≠ k) :
    alookup (aset h k v) k2 = alookup h k2 := by
  induction h with
  | nil => simp [aset, alookup, Ne.symm hne]
  | cons p rest ih =>
    by_cases hk : p.1 = k
    · simp [aset, alookup, hk, Ne.symm hne]
    · simp only [aset, hk, if_false, reduceIte]
      by_cases hk2 : p.1 = k2
      · simp [alookup, hk2]
      · simp [alookup, hk2, ih]

lemma aset_aset {κ α : Type} [DecidableEq κ]
    (h : List (κ × α)) (k : κ) (v w : α) :
    aset (aset h k v) k w = aset h k w := by
  induction h with
  | nil => simp [aset]
  | cons p rest ih =>
    by_cases hk : p.1 = k
    · simp [aset, hk]
    · simp [aset, hk, ih]

lemma zadd_zadd (s : SortedSet) (sc : Int) (m : String) :
    zadd (zadd s sc m) sc m = zadd s sc m := by
  induction s with
  | nil => simp [zadd]
  | cons p rest ih =>
    by_cases hk : p.1 = m
    · simp [zadd, hk]
    · simp [zadd, hk, ih]

lemma sensorTicks_saveTick_self (st : St) (t : Tick) :
    (saveTick st t).sensorTicks t.SensorID =
      zadd (st.sensorTicks t.SensorID) t.rank (marshalTick t) := by
  unfold saveTick St.sensorTicks
  simp [alookup_aset_self]

/-- C4: appending the same tick (same sensorID, timestamp and
serialized payload) twice is a no-op, not an error: the store state is
unchanged by the duplicate, the count is unchanged, and from an empty
store two identical appends leave exactly one entry. -/
theorem C4_append_idempotent :
    (∀ (st : St) (t : Tick), saveTick (saveTick st t) t = saveTick st t)
    ∧ (∀ (st : St) (t : Tick),
        countTicks (saveTick (saveTick st t) t) t.SensorID =
          countTicks (saveTick st t) t.SensorID)
    ∧ (∀ t : Tick, countTicks (saveTick (saveTick emptySt t) t) t.SensorID = 1) := by
  have h1 : ∀ (st : St) (t : Tick), saveTick (saveTick st t) t = saveTick st t := by
    intro st t
    have hS := sensorTicks_saveTick_self st t
    conv_lhs => rw [saveTick]
    rw [hS, zadd_zadd]
    conv_lhs => rw [saveTick]
    rw [aset_aset]
    conv_rhs => rw [saveTick]
  refine ⟨h1, fun st t => by rw [h1], fun t => ?_⟩
  rw [h1]
  unfold countTicks zcard
  rw [sensorTicks_saveTick_self]
  rw [show emptySt.sensorTicks t.SensorID = [] from rfl]
  rfl

/-! ### NewTick normalization -/

lemma NewTick_eq (input : String) (h2 : 2 ≤ input.length) :
    NewTick input =
      match recordFields input with
      | [] => .decodeError
      | p0 :: tl =>
        match goTimeParse p0 with
        | none => .decodeError
        | some dt =>
          match tl with
          | [] => .crashed
          | p1 :: _ =>
            match goParseInt64 p1 with
            | none => .decodeError
            | some sid =>
              if (p0 :: tl).length < 7 then .crashed
              else .ok ⟨dt, sid, (p0 :: tl).getD 2 "", (p0 :: tl).getD 3 "",
                (p0 :: tl).getD 4 "", (p0 :: tl).getD 5 "", (p0 :: tl).getD 6 "",
                if 8 ≤ (p0 :: tl).length then (p0 :: tl).getD 7 "" else ""⟩ := by
  unfold NewTick
  rw [if_neg (not_lt.mpr h2)]
  cases recordFields input with
  | nil => rfl
  | cons p0 tl => rfl

lemma NewTick_eq_ok (input : String) (dt : DateTime) (sid : Int)
    (h2 : 2 ≤ input.length)
    (hdt : goTimeParse ((recordFields input).getD 0 "") = some dt)
    (hsid : goParseInt64 ((recordFields input).getD 1 "") = some sid)
    (h7 : 7 ≤ (recordFields input).length) :
    NewTick input = .ok ⟨dt, sid, (recordFields input).getD 2 "",
      (recordFields input).getD 3 "", (recordFields input).getD 4 "",
      (recordFields input).getD 5 "", (recordFields input).getD 6 "",
      if 8 ≤ (recordFields input).length
        then (recordFields input).getD 7 "" else ""⟩ := by
  rw [NewTick_eq input h2]
  cases hr : recordFields input with
  | nil => rw [hr] at h7; simp at h7
  | cons p0 tl =>
    rw [hr] at hdt hsid h7
    cases tl with
    | nil => simp at h7
    | cons p1 tl2 =>
      simp only [List.getD_cons_zero, List.getD_cons_succ] at hdt hsid
      simp only [hdt, hsid]
      rw [if_neg (not_lt.mpr h7)]

/-- C2 counterexample: the record "[2024-1-1 10:0:0;42;60]" has fewer
than 7 semicolon-separated fields, yet NewTick does not return a decode
error on it: it crashes with an index-out-of-range panic. -/
theorem C2_counterexample_few_fields :
    (recordFields "[2024-1-1 10:0:0;42;60]").length < 7
    ∧ NewTick "[2024-1-1 10:0:0;42;60]" ≠ DecodeResult.decodeError
    ∧ NewTick "[2024-1-1 10:0:0;42;60]" = DecodeResult.crashed := by
  refine ⟨by decide, by decide, by decide⟩

/-- C2 (amended): NewTick returns a DecodeError (rather than a Tick and
rather than crashing) whenever the first field fails to parse as a
timestamp, and whenever the timestamp parses and a second field exists
but is non-numeric; however, a record whose timestamp and sensorID both
parse but which has fewer than 7 fields makes it crash (index out of
range) instead of returning a DecodeError, as does an input shorter
than 2 characters (slice bounds), or one whose single field is a valid
timestamp (index out of range on the sensorID field). -/
theorem C2_amended_decode_failures :
    (∀ input : String, input.length < 2 →
      NewTick input = DecodeResult.crashed)
    ∧ (∀ input : String, 2 ≤ input.length →
        goTimeParse ((recordFields input).getD 0 "") = none →
        NewTick input = DecodeResult.decodeError)
    ∧ (∀ (input : String) (dt : DateTime), 2 ≤ input.length →
        goTimeParse ((recordFields input).getD 0 "") = some dt →
        2 ≤ (recordFields input).length →
        goParseInt64 ((recordFields input).getD 1 "") = none →
        NewTick input = DecodeResult.decodeError)
    ∧ (∀ (input : String) (dt : DateTime), 2 ≤ input.length →
        goTimeParse ((recordFields input).getD 0 "") = some dt →
        (recordFields input).length < 2 →
        NewTick input = DecodeResult.crashed)
    ∧ (∀ (input : String) (dt : DateTime) (sid : Int), 2 ≤ input.length →
        goTimeParse ((recordFields input).getD 0 "") = some dt →
        goParseInt64 ((recordFields input).getD 1 "") = some sid →
        (recordFields input).length < 7 →
        NewTick input = DecodeResult.crashed) := by
  refine ⟨fun input h => by unfold NewTick; rw [if_pos h], ?_, ?_, ?_, ?_⟩
  · intro input h2 hdt
    rw [NewTick_eq input h2]
    cases hr : recordFields input with
    | nil => rfl
    | cons p0 tl =>
      rw [hr] at hdt
      simp only [List.getD_cons_zero] at hdt
      simp only [hdt]
  · intro input dt h2 hdt hlen hsid
    rw [NewTick_eq input h2]
    cases hr : recordFields input with
    | nil => rfl
    | cons p0 tl =>
      rw [hr] at hdt hlen hsid
      cases tl with
      | nil => simp at hlen
      | cons p1 tl2 =>
        simp only [List.getD_cons_zero, List.getD_cons_succ] at hdt hsid
        simp only [hdt, hsid]
  · intro input dt h2 hdt hlen
    rw [NewTick_eq input h2]
    cases hr : recordFields input with
    | nil =>
      rw [hr] at hdt
      rw [show ([] : List String).getD 0 "" = "" from rfl] at hdt
      rw [show goTimeParse "" = none from rfl] at hdt
      cases hdt
    | cons p0 tl =>
      rw [hr] at hdt hlen
      cases tl with
      | nil =>
        simp only [List.getD_cons_zero] at hdt
        simp only [hdt]
      | cons p1 tl2 => simp at hlen; omega
  · intro input dt sid h2 hdt hsid hlen
    rw [NewTick_eq input h2]
    cases hr : recordFields input with
    | nil =>
      rw [hr] at hdt
      rw [show ([] : List String).getD 0 "" = "" from rfl] at hdt
      rw [show goTimeParse "" = none from rfl] at hdt
      cases hdt
    | cons p0 tl =>
      rw [hr] at hdt hsid hlen
      cases tl with
      | nil =>
        simp only [List.getD_cons_zero] at hdt
        simp only [hdt]
      | cons p1 tl2 =>
        simp only [List.getD_cons_zero, List.getD_cons_succ] at hdt hsid
        simp only [hdt, hsid]
        rw [if_pos hlen]

/-- Witness for C2's amended theorem: concrete inputs hitting the
timestamp-failure, bad-sensorID, and short-record branches. -/
theorem C2_amended_decode_failures_witness :
    NewTick "" = DecodeResult.crashed
    ∧ NewTick "[bad-record]" = DecodeResult.decodeError
    ∧ NewTick "[2024-1-1 10:0:0;4x;60;3300;200;0;255]" = DecodeResult.decodeError
    ∧ NewTick "[2024-1-1 10:0:0]" = DecodeResult.crashed
    ∧ NewTick "[2024-1-1 10:0:0;42;60]" = DecodeResult.crashed :=
  ⟨C2_amended_decode_failures.1 "" (by decide),
   C2_amended_decode_failures.2.1 "[bad-record]" (by decide) (by decide),
   C2_amended_decode_failures.2.2.1 "[2024-1-1 10:0:0;4x;60;3300;200;0;255]"
     ⟨2024, 1, 1, 10, 0, 0⟩ (by decide) (by decide) (by decide) (by decide),
   C2_amended_decode_failures.2.2.2.1 "[2024-1-1 10:0:0]"
     ⟨2024, 1, 1, 10, 0, 0⟩ (by decide) (by decide) (by decide),
   C2_amended_decode_failures.2.2.2.2 "[2024-1-1 10:0:0;42;60]"
     ⟨2024, 1, 1, 10, 0, 0⟩ 42 (by decide) (by decide) (by decide) (by decide)⟩

/-! ### NewTick inversion -/

lemma NewTick_ok_inv (input : String) (t : Tick)
    (h : NewTick input = DecodeResult.ok t) :
    2 ≤ input.length
    ∧ 7 ≤ (recordFields input).length
    ∧ goTimeParse ((recordFields input).getD 0 "") = some t.Datetime
    ∧ goParseInt64 ((recordFields input).getD 1 "") = some t.SensorID
    ∧ t.NextDataSession = (recordFields input).getD 2 ""
    ∧ t.BatteryVoltage = (recordFields input).getD 3 ""
    ∧ t.Sensor1 = (recordFields input).getD 4 ""
    ∧ t.Sensor2 = (recordFields input).getD 5 ""
    ∧ t.RadioQuality = (recordFields input).getD 6 ""
    ∧ t.controllerID = (if 8 ≤ (recordFields input).length
        then (recordFields input).getD 7 "" else "") := by
  by_cases h2 : input.length < 2
  · unfold NewTick at h
    rw [if_pos h2] at h
    cases h
  · rw [NewTick_eq input (not_lt.mp h2)] at h
    refine And.intro (not_lt.mp h2) ?_
    cases hr : recordFields input with
    | nil => rw [hr] at h; cases h
    | cons p0 tl =>
      rw [hr] at h
      cases hdt : goTimeParse p0 with
      | none => simp only [hdt] at h; cases h
      | some dt =>
        simp only [hdt] at h
        cases tl with
        | nil => cases h
        | cons p1 tl2 =>
          cases hsid : goParseInt64 p1 with
          | none => simp only [hsid] at h; cases h
          | some sid =>
            simp only [hsid] at h
            by_cases h7 : (p0 :: p1 :: tl2).length < 7
            · rw [if_pos h7] at h; cases h
            · rw [if_neg h7] at h
              injection h with h
              subst h
              refine ⟨not_lt.mp h7, ?_, ?_, rfl, rfl, rfl, rfl, rfl, rfl⟩
              · simpa using hdt
              · simpa using hsid

/-- C9: for every valid raw record, decoding passes the textual fields
through unchanged: the stored NextDataSession, BatteryVoltage, Sensor1,
Sensor2 and RadioQuality equal the corresponding semicolon-delimited
segments of the input between the stripped delimiter pair, the sensorID
is the parsed second segment, and the timestamp is parsed from the
first segment — no trimming, re-encoding or normalization. -/
theorem C9_decode_passthrough :
    ∀ (input : String) (t : Tick), NewTick input = DecodeResult.ok t →
      7 ≤ (recordFields input).length
      ∧ goTimeParse ((recordFields input).getD 0 "") = some t.Datetime
      ∧ goParseInt64 ((recordFields input).getD 1 "") = some t.SensorID
      ∧ t.NextDataSession = (recordFields input).getD 2 ""
      ∧ t.BatteryVoltage = (recordFields input).getD 3 ""
      ∧ t.Sensor1 = (recordFields input).getD 4 ""
      ∧ t.Sensor2 = (recordFields input).getD 5 ""
      ∧ t.RadioQuality = (recordFields input).getD 6 "" := by
  intro input t h
  obtain ⟨_, h7, hdt, hsid, h2', h3', h4', h5', h6', _⟩ := NewTick_ok_inv input t h
  exact ⟨h7, hdt, hsid, h2', h3', h4', h5', h6'⟩

/-- Witness for C9 at the spec's example record. -/
theorem C9_decode_passthrough_witness :
    7 ≤ (recordFields "[2024-1-1 10:0:0;42;60;3300;200;0;255]").length
    ∧ goTimeParse ((recordFields "[2024-1-1 10:0:0;42;60;3300;200;0;255]").getD 0 "")
        = some ⟨2024, 1, 1, 10, 0, 0⟩
    ∧ goParseInt64 ((recordFields "[2024-1-1 10:0:0;42;60;3300;200;0;255]").getD 1 "")
        = some 42
    ∧ "60" = (recordFields "[2024-1-1 10:0:0;42;60;3300;200;0;255]").getD 2 ""
    ∧ "3300" = (recordFields "[2024-1-1 10:0:0;42;60;3300;200;0;255]").getD 3 ""
    ∧ "200" = (recordFields "[2024-1-1 10:0:0;42;60;3300;200;0;255]").getD 4 ""
    ∧ "0" = (recordFields "[2024-1-1 10:0:0;42;60;3300;200;0;255]").getD 5 ""
    ∧ "255" = (recordFields "[2024-1-1 10:0:0;42;60;3300;200;0;255]").getD 6 "" :=
  C9_decode_passthrough "[2024-1-1 10:0:0;42;60;3300;200;0;255]"
    ⟨⟨2024, 1, 1, 10, 0, 0⟩, 42, "60", "3300", "200", "0", "255", ""⟩ (by decide)

/-! ### Delimiter independence and extra-field lemmas -/

lemma recordFields_delim (a b : Char) (mid : String) :
    recordFields (String.mk (a :: mid.data ++ [b])) =
      (splitChar ';' mid.data).map String.mk := by
  unfold recordFields
  have hstrip : (((String.mk (a :: mid.data ++ [b])).data.drop 1).dropLast)
      = mid.data := by
    show ((mid.data ++ [b]).dropLast) = mid.data
    rw [List.dropLast_concat]
  rw [hstrip]

lemma length_mk_delim (a b : Char) (mid : String) :
    (String.mk (a :: mid.data ++ [b])).length = mid.length + 2 := by
  show (a :: mid.data ++ [b]).length = mid.data.length + 2
  simp

lemma getD_eq_of_take_eq {α : Type} [Inhabited α] :
    ∀ (n : Nat) (l1 l2 : List α), l1.take n = l2.take n →
      ∀ i : Nat, i < n → ∀ d : α, l1.getD i d = l2.getD i d := by
  intro n
  induction n with
  | zero => intro _ _ _ i hi; omega
  | succ m ih =>
    intro l1 l2 ht i hi d
    cases l1 with
    | nil =>
      cases l2 with
      | nil => rfl
      | cons c2 r2 => simp [List.take] at ht
    | cons c1 r1 =>
      cases l2 with
      | nil => simp [List.take] at ht
      | cons c2 r2 =>
        simp only [List.take, List.cons.injEq] at ht
        cases i with
        | zero => simp [List.getD_cons_zero, ht.1]
        | succ j =>
          simp only [List.getD_cons_succ]
          exact ih r1 r2 ht.2 j (by omega) d

lemma decodeFields_ge8 (l : List String) (h8 : 8 ≤ l.length) :
    decodeFields l =
      match goTimeParse (l.getD 0 "") with
      | none => DecodeResult.decodeError
      | some dt =>
        match goParseInt64 (l.getD 1 "") with
        | none => DecodeResult.decodeError
        | some sid => DecodeResult.ok ⟨dt, sid, l.getD 2 "", l.getD 3 "",
            l.getD 4 "", l.getD 5 "", l.getD 6 "", l.getD 7 ""⟩ := by
  cases l with
  | nil => simp at h8
  | cons p0 tl =>
    cases tl with
    | nil => simp at h8
    | cons p1 tl2 =>
      have hlen : 8 ≤ tl2.length + 2 := by simpa using h8
      have h7 : ¬((p0 :: p1 :: tl2).length < 7) := by
        simp only [List.length_cons]; omega
      have h8b : 8 ≤ (p0 :: p1 :: tl2).length := h8
      unfold decodeFields
      simp only [List.headD_cons, List.drop_succ_cons, List.drop_zero,
        List.getD_cons_zero, List.getD_cons_succ]
      cases goTimeParse p0 with
      | none => rfl
      | some dt =>
        cases goParseInt64 p1 with
        | none => rfl
        | some sid =>
          dsimp only
          rw [if_neg h7, if_pos h8b]

/-- C10 (implicit): NewTick never validates the delimiter characters —
for inputs of length at least 2 it drops the first and last characters
whatever they are, so changing only the two delimiters never changes
the result, and a record with non-bracket delimiters but a well-formed
interior decodes successfully; when 8 or more fields are present the
8th becomes the controller hint and any fields beyond the 8th are
silently ignored. -/
theorem C10_no_delimiter_validation :
    (∀ (a b a2 b2 : Char) (mid : String),
      NewTick (String.mk (a :: mid.data ++ [b])) =
        NewTick (String.mk (a2 :: mid.data ++ [b2])))
    ∧ (∀ (input : String) (t : Tick), NewTick input = DecodeResult.ok t →
        8 ≤ (recordFields input).length →
        t.controllerID = (recordFields input).getD 7 "")
    ∧ (∀ input1 input2 : String, 2 ≤ input1.length → 2 ≤ input2.length →
        8 ≤ (recordFields input1).length → 8 ≤ (recordFields input2).length →
        (recordFields input1).take 8 = (recordFields input2).take 8 →
        NewTick input1 = NewTick input2)
    ∧ NewTick "X2024-1-1 10:0:0;42;60;3300;200;0;255Y"
        = DecodeResult.ok ⟨⟨2024, 1, 1, 10, 0, 0⟩, 42, "60", "3300", "200", "0", "255", ""⟩
    ∧ NewTick "[2024-1-1 10:0:0;42;60;3300;200;0;255;A;extra;more]"
        = NewTick "[2024-1-1 10:0:0;42;60;3300;200;0;255;A]" := by
  refine ⟨?_, ?_, ?_, by decide, by decide⟩
  · intro a b a2 b2 mid
    have h1 : 2 ≤ (String.mk (a :: mid.data ++ [b])).length := by
      rw [length_mk_delim]; omega
    have h2 : 2 ≤ (String.mk (a2 :: mid.data ++ [b2])).length := by
      rw [length_mk_delim]; omega
    unfold NewTick
    rw [if_neg (not_lt.mpr h1), if_neg (not_lt.mpr h2),
      recordFields_delim, recordFields_delim]
  · intro input t h h8
    obtain ⟨_, _, _, _, _, _, _, _, _, hc⟩ := NewTick_ok_inv input t h
    rw [hc, if_pos h8]
  · intro input1 input2 h1 h2 h81 h82 ht
    unfold NewTick
    rw [if_neg (not_lt.mpr h1), if_neg (not_lt.mpr h2),
      decodeFields_ge8 _ h81, decodeFields_ge8 _ h82,
      getD_eq_of_take_eq 8 _ _ ht 0 (by omega) "",
      getD_eq_of_take_eq 8 _ _ ht 1 (by omega) "",
      getD_eq_of_take_eq 8 _ _ ht 2 (by omega) "",
      getD_eq_of_take_eq 8 _ _ ht 3 (by omega) "",
      getD_eq_of_take_eq 8 _ _ ht 4 (by omega) "",
      getD_eq_of_take_eq 8 _ _ ht 5 (by omega) "",
      getD_eq_of_take_eq 8 _ _ ht 6 (by omega) "",
      getD_eq_of_take_eq 8 _ _ ht 7 (by omega) ""]

/-- Witness for C10: concrete delimiter swap, concrete 8-field hint,
and two concrete 9-plus-field inputs agreeing on their first 8
fields. -/
theorem C10_no_delimiter_validation_witness :
    NewTick (String.mk ('(' :: "2024-1-1 10:0:0;42;60;3300;200;0;255".data ++ [')']))
      = NewTick (String.mk ('[' :: "2024-1-1 10:0:0;42;60;3300;200;0;255".data ++ [']']))
    ∧ ("A" : String)
        = (recordFields "[2024-1-1 10:0:0;42;60;3300;200;0;255;A]").getD 7 ""
    ∧ NewTick "[2024-1-1 10:0:0;42;60;3300;200;0;255;A;x]"
        = NewTick "[2024-1-1 10:0:0;42;60;3300;200;0;255;A;y;z]" :=
  ⟨C10_no_delimiter_validation.1 '(' ')' '[' ']' "2024-1-1 10:0:0;42;60;3300;200;0;255",
   C10_no_delimiter_validation.2.1 "[2024-1-1 10:0:0;42;60;3300;200;0;255;A]"
     ⟨⟨2024, 1, 1, 10, 0, 0⟩, 42, "60", "3300", "200", "0", "255", "A"⟩
     (by decide) (by decide),
   C10_no_delimiter_validation.2.2.1 "[2024-1-1 10:0:0;42;60;3300;200;0;255;A;x]"
     "[2024-1-1 10:0:0;42;60;3300;200;0;255;A;y;z]"
     (by decide) (by decide) (by decide) (by decide) (by decide)⟩

/-! ### Association resolution -/

lemma mem_sadd_self (l : List String) (x : String) : x ∈ sadd l x := by
  unfold sadd
  by_cases h : x ∈ l
  · rw [if_pos h]; exact h
  · rw [if_neg h]; simp

/-- Spec-side resolution precedence (4.3): the tick's explicit hint
when non-empty, otherwise the stored association when present
(non-empty), otherwise the fixed default controller "1". -/
def resolvePrecedence (st : St) (t : Tick) : String :=
  if t.controllerID ≠ "" then t.controllerID
  else if (alookup st.sensorToController t.SensorID).getD "" ≠ "" then
    (alookup st.sensorToController t.SensorID).getD ""
  else "1"

/-- C6: processTick resolves the controller with precedence hint >
stored association > default "1", and always writes back: the
association is re-recorded, the controller is added to the
known-controllers set, and the sensor is added to that controller's
member set; for a hint-less sensor with no stored association the
default "1" is used and a subsequent lookup returns it. -/
theorem C6_resolve_precedence :
    (∀ (st : St) (s : String) (t : Tick), NewTick s = DecodeResult.ok t →
      ∃ st2, processTick st s = StepResult.ok st2
        ∧ alookup st2.sensorToController t.SensorID
            = some (resolvePrecedence st t)
        ∧ resolvePrecedence st t ∈ st2.controllers
        ∧ toString t.SensorID ∈ st2.members (resolvePrecedence st t))
    ∧ resolvePrecedence emptySt
        ⟨⟨2024, 1, 1, 10, 0, 0⟩, 42, "60", "3300", "200", "0", "255", ""⟩ = "1"
    ∧ alookup (ProcessTicks emptySt
        "[2024-1-1 10:0:0;42;60;3300;200;0;255]").state.sensorToController 42
        = some "1"
    ∧ "1" ∈ (ProcessTicks emptySt
        "[2024-1-1 10:0:0;42;60;3300;200;0;255]").state.controllers
    ∧ "42" ∈ (ProcessTicks emptySt
        "[2024-1-1 10:0:0;42;60;3300;200;0;255]").state.members "1" := by
  refine ⟨?_, by decide, by decide, by decide, by decide⟩
  intro st s t h
  unfold processTick
  rw [h]
  dsimp only
  rw [show (saveTick st t).sensorToController = st.sensorToController from rfl]
  have hcode : (if (if t.controllerID = ""
        then (alookup st.sensorToController t.SensorID).getD ""
        else t.controllerID) = "" then "1"
      else (if t.controllerID = ""
        then (alookup st.sensorToController t.SensorID).getD ""
        else t.controllerID)) = resolvePrecedence st t := by
    unfold resolvePrecedence
    by_cases hc : t.controllerID = "" <;>
      by_cases hs : (alookup st.sensorToController t.SensorID).getD "" = "" <;>
      simp [hc, hs]
  rw [hcode]
  refine ⟨_, rfl, ?_, ?_, ?_⟩
  · exact alookup_aset_self _ _ _
  · exact mem_sadd_self _ _
  · show toString t.SensorID ∈
      ((alookup (aset (saveTick st t).controllerSensors (resolvePrecedence st t)
        (sadd ((saveTick st t).members (resolvePrecedence st t))
          (toString t.SensorID))) (resolvePrecedence st t)).getD [])
    rw [alookup_aset_self]
    exact mem_sadd_self _ _

/-- Witness for C6's general clause at a concrete state and record:
a sensor with a stored association "A" and a hint-less record resolves
to "A" and re-records it. -/
theorem C6_resolve_precedence_witness :
    ∃ st2, processTick ⟨[], [], [(42, "A")], []⟩
        "[2024-1-1 10:0:0;42;60;3300;200;0;255]" = StepResult.ok st2
      ∧ alookup st2.sensorToController 42 = some "A"
      ∧ "A" ∈ st2.controllers
      ∧ "42" ∈ st2.members "A" :=
  C6_resolve_precedence.1 ⟨[], [], [(42, "A")], []⟩
    "[2024-1-1 10:0:0;42;60;3300;200;0;255]"
    ⟨⟨2024, 1, 1, 10, 0, 0⟩, 42, "60", "3300", "200", "0", "255", ""⟩ (by decide)

/-! ### The association hash is a function: key uniqueness -/

lemma mem_keys_aset {κ α : Type} [DecidableEq κ]
    (h : List (κ × α)) (k x : κ) (v : α) :
    x ∈ (aset h k v).map Prod.fst ↔ x ∈ h.map Prod.fst ∨ x = k := by
  induction h with
  | nil => simp [aset]
  | cons p rest ih =>
    by_cases hk : p.1 = k
    · simp only [aset, hk, reduceIte, List.map_cons, List.mem_cons]
      constructor
      · rintro (h0 | h0)
        · exact Or.inr h0
        · exact Or.inl (Or.inr h0)
      · rintro ((h0 | h0) | h0)
        · exact Or.inl (hk ▸ h0)
        · exact Or.inr h0
        · exact Or.inl h0
    · simp only [aset, hk, reduceIte, List.map_cons, List.mem_cons, ih]
      constructor
      · rintro (h0 | h0 | h0)
        · exact Or.inl (Or.inl h0)
        · exact Or.inl (Or.inr h0)
        · exact Or.inr h0
      · rintro ((h0 | h0) | h0)
        · exact Or.inl h0
        · exact Or.inr (Or.inl h0)
        · exact Or.inr (Or.inr h0)

lemma nodup_keys_aset {κ α : Type} [DecidableEq κ]
    (h : List (κ × α)) (k : κ) (v : α)
    (hn : (h.map Prod.fst).Nodup) : ((aset h k v).map Prod.fst).Nodup := by
  induction h with
  | nil => simp [aset]
  | cons p rest ih =>
    simp only [List.map_cons, List.nodup_cons] at hn
    by_cases hk : p.1 = k
    · simp only [aset, hk, reduceIte, List.map_cons, List.nodup_cons]
      exact ⟨hk ▸ hn.1, hn.2⟩
    · simp only [aset, hk, reduceIte, List.map_cons, List.nodup_cons]
      refine ⟨?_, ih hn.2⟩
      intro hmem
      rcases (mem_keys_aset rest k p.1 v).mp hmem with h0 | h0
      · exact hn.1 h0
      · exact hk h0

lemma processTick_nodup_keys (st : St) (r : String) (st2 : St)
    (h : processTick st r = StepResult.ok st2)
    (hn : (st.sensorToController.map Prod.fst).Nodup) :
    (st2.sensorToController.map Prod.fst).Nodup := by
  unfold processTick at h
  cases hNT : NewTick r with
  | crashed => rw [hNT] at h; cases h
  | decodeError => rw [hNT] at h; cases h
  | ok t =>
    rw [hNT] at h
    dsimp only at h
    injection h with h
    subst h
    exact nodup_keys_aset _ _ _ hn

lemma processRecords_nodup_keys :
    ∀ (rs : List String) (st : St) (c : Nat),
      (st.sensorToController.map Prod.fst).Nodup →
      (((processRecords st c rs).state).sensorToController.map Prod.fst).Nodup := by
  intro rs
  induction rs with
  | nil => intro st c hn; exact hn
  | cons r rest ih =>
    intro st c hn
    unfold processRecords
    by_cases hr : r = ""
    · rw [if_pos hr]
      exact ih st c hn
    · rw [if_neg hr]
      cases hp : processTick st r with
      | ok st2 => exact ih st2 (c + 1) (processTick_nodup_keys st r st2 hp hn)
      | decodeFailed => exact hn
      | crashed => exact hn

/-- C7: the sensor→controller association is a function — from any
state whose hash has duplicate-free keys, any batch leaves the keys
duplicate-free, HSET overwrites with last-write-wins and leaves other
keys alone; yet when a sensor's association changes to a new controller
the sensor stays in the prior controller's member set (stale
membership): after a hint-A record then a hint-B record for sensor 42,
the association is "B" while "42" remains a member of both "A" and
"B". -/
theorem C7_association_function_stale_membership :
    (∀ (h : List (Int × String)) (k : Int) (v : String),
        alookup (aset h k v) k = some v)
    ∧ (∀ (h : List (Int × String)) (k k2 : Int) (v : String), k2 ≠ k →
        alookup (aset h k v) k2 = alookup h k2)
    ∧ (∀ (tickList : String) (st : St),
        (st.sensorToController.map Prod.fst).Nodup →
        (((ProcessTicks st tickList).state).sensorToController.map Prod.fst).Nodup)
    ∧ alookup (ProcessTicks emptySt
        "[2024-1-1 10:0:0;42;60;3300;200;0;255;A]\n[2024-1-1 10:0:1;42;60;3300;200;0;255;B]").state.sensorToController 42
        = some "B"
    ∧ "42" ∈ (ProcessTicks emptySt
        "[2024-1-1 10:0:0;42;60;3300;200;0;255;A]\n[2024-1-1 10:0:1;42;60;3300;200;0;255;B]").state.members "A"
    ∧ "42" ∈ (ProcessTicks emptySt
        "[2024-1-1 10:0:0;42;60;3300;200;0;255;A]\n[2024-1-1 10:0:1;42;60;3300;200;0;255;B]").state.members "B" := by
  refine ⟨fun h k v => alookup_aset_self h k v,
    fun h k k2 v hne => alookup_aset_ne h k k2 v hne,
    fun tickList st hn => processRecords_nodup_keys _ st 0 hn,
    by decide, by decide, by decide⟩

/-- Witness for C7: last-write-wins at a concrete hash, key-uniqueness
through a concrete two-record batch. -/
theorem C7_association_function_stale_membership_witness :
    alookup (aset ([(7, "X")] : List (Int × String)) 42 "B") 7 = some "X"
    ∧ (((ProcessTicks emptySt
        "[2024-1-1 10:0:0;42;60;3300;200;0;255;A]\n[2024-1-1 10:0:1;43;60;3300;200;0;255;B]").state).sensorToController.map
          Prod.fst).Nodup :=
  ⟨C7_association_function_stale_membership.2.1 [(7, "X")] 42 7 "B" (by decide),
   C7_association_function_stale_membership.2.2.1
     "[2024-1-1 10:0:0;42;60;3300;200;0;255;A]\n[2024-1-1 10:0:1;43;60;3300;200;0;255;B]"
     emptySt (by decide)⟩

/-! ### Batch sequencing -/

lemma processTick_ok_of_decode (st : St) (r : String) (t : Tick)
    (h : NewTick r = DecodeResult.ok t) :
    ∃ st2, processTick st r = StepResult.ok st2 := by
  unfold processTick
  rw [h]
  exact ⟨_, rfl⟩

lemma processTick_decodeFailed (st : St) (r : String)
    (h : NewTick r = DecodeResult.decodeError) :
    processTick st r = StepResult.decodeFailed := by
  unfold processTick
  rw [h]

lemma processRecords_filter :
    ∀ (rs : List String) (st : St) (c : Nat),
      processRecords st c rs
        = processRecords st c (rs.filter (fun r => r ≠ "")) := by
  intro rs
  induction rs with
  | nil => intro st c; rfl
  | cons r rest ih =>
    intro st c
    by_cases hr : r = ""
    · subst hr
      have hfc : ("" :: rest).filter (fun r => r ≠ "")
          = rest.filter (fun r => r ≠ "") := by simp
      rw [hfc]
      show processRecords st c ("" :: rest) = _
      conv_lhs => unfold processRecords
      rw [if_pos rfl]
      exact ih st c
    · have hfc : (r :: rest).filter (fun r => r ≠ "")
          = r :: rest.filter (fun r => r ≠ "") := by simp [hr]
      rw [hfc]
      conv_lhs => unfold processRecords
      conv_rhs => unfold processRecords
      simp only [if_neg hr]
      cases hp : processTick st r with
      | ok st2 => exact ih st2 (c + 1)
      | decodeFailed => rfl
      | crashed => rfl

lemma processRecords_all_ok :
    ∀ (rs : List String) (st : St) (c : Nat),
      (∀ r ∈ rs, r ≠ "" ∧ ∃ t, NewTick r = DecodeResult.ok t) →
      processRecords st c rs
        = BatchResult.ok (runGood st rs) (c + rs.length) := by
  intro rs
  induction rs with
  | nil => intro st c _; rfl
  | cons r rest ih =>
    intro st c hall
    obtain ⟨hne, t, ht⟩ := hall r (List.mem_cons_self r rest)
    obtain ⟨st2, hst2⟩ := processTick_ok_of_decode st r t ht
    unfold processRecords runGood
    rw [if_neg hne]
    simp only [hst2]
    rw [ih st2 (c + 1) (fun x hx => hall x (List.mem_cons_of_mem r hx))]
    congr 1
    simp only [List.length_cons]
    omega

lemma processRecords_prefix_fail :
    ∀ (pre : List String) (st : St) (c : Nat) (bad : String)
      (post : List String),
      (∀ r ∈ pre, r ≠ "" ∧ ∃ t, NewTick r = DecodeResult.ok t) →
      bad ≠ "" → NewTick bad = DecodeResult.decodeError →
      processRecords st c (pre ++ bad :: post)
        = BatchResult.failed (runGood st pre) := by
  intro pre
  induction pre with
  | nil =>
    intro st c bad post _ hbne hbad
    simp only [List.nil_append]
    unfold processRecords runGood
    rw [if_neg hbne, processTick_decodeFailed st bad hbad]
  | cons r rest ih =>
    intro st c bad post hall hbne hbad
    obtain ⟨hne, t, ht⟩ := hall r (List.mem_cons_self r rest)
    obtain ⟨st2, hst2⟩ := processTick_ok_of_decode st r t ht
    simp only [List.cons_append]
    unfold processRecords runGood
    rw [if_neg hne]
    simp only [hst2]
    exact ih st2 (c + 1) bad post
      (fun x hx => hall x (List.mem_cons_of_mem r hx)) hbne hbad

lemma ProcessTicks_eq_batchRecords (st : St) (tickList : String) :
    ProcessTicks st tickList = processRecords st 0 (batchRecords tickList) := by
  unfold ProcessTicks batchRecords
  exact processRecords_filter _ st 0

lemma mem_batchRecords_ne_empty {r : String} {tickList : String}
    (h : r ∈ batchRecords tickList) : r ≠ "" := by
  unfold batchRecords at h
  exact of_decide_eq_true (List.mem_filter.mp h).2

set_option maxRecDepth 40000 in
/-- C1: the pipeline processes a batch's records strictly in order;
when every record decodes it returns the count of processed records and
the state of processing them all in order; when a record fails to
decode it aborts there, returning the failure, with the state exactly
that of the already-processed prefix (no rollback, later records never
processed). For the three-record batch with a malformed second record,
the final state is exactly that of processing record 1 alone, and
sensor 42 ends with exactly one stored tick. -/
theorem C1_batch_order_and_abort :
    (∀ (st : St) (tickList : String),
      (∀ r ∈ batchRecords tickList, ∃ t, NewTick r = DecodeResult.ok t) →
      ProcessTicks st tickList = BatchResult.ok
        (runGood st (batchRecords tickList)) (batchRecords tickList).length)
    ∧ (∀ (st : St) (tickList : String) (pre : List String) (bad : String)
        (post : List String),
        batchRecords tickList = pre ++ bad :: post →
        (∀ r ∈ pre, ∃ t, NewTick r = DecodeResult.ok t) →
        NewTick bad = DecodeResult.decodeError →
        ProcessTicks st tickList = BatchResult.failed (runGood st pre))
    ∧ ProcessTicks emptySt
        "[2024-1-1 10:0:0;42;60;3300;200;0;255]\n[bad-record]\n[2024-1-1 10:0:1;42;60;3300;200;0;255]"
        = BatchResult.failed
          (ProcessTicks emptySt "[2024-1-1 10:0:0;42;60;3300;200;0;255]").state
    ∧ countTicks (ProcessTicks emptySt
        "[2024-1-1 10:0:0;42;60;3300;200;0;255]\n[bad-record]\n[2024-1-1 10:0:1;42;60;3300;200;0;255]").state 42
        = 1 := by
  refine ⟨?_, ?_, by decide, by decide⟩
  · intro st tickList hall
    rw [ProcessTicks_eq_batchRecords]
    refine (processRecords_all_ok _ st 0 ?_).trans (by rw [Nat.zero_add])
    intro r hr
    exact ⟨mem_batchRecords_ne_empty hr, hall r hr⟩
  · intro st tickList pre bad post hsplit hall hbad
    rw [ProcessTicks_eq_batchRecords, hsplit]
    refine processRecords_prefix_fail pre st 0 bad post ?_ ?_ hbad
    · intro r hr
      refine ⟨?_, hall r hr⟩
      exact mem_batchRecords_ne_empty (hsplit ▸ List.mem_append_left _ hr)
    · exact mem_batchRecords_ne_empty
        (hsplit ▸ List.mem_append_right _ (List.mem_cons_self _ _))

/-- Witness for C1: an all-good two-record batch returns count 2, and
the three-record batch with the malformed second record aborts with
only record 1's effects persisted. -/
theorem C1_batch_order_and_abort_witness :
    ProcessTicks emptySt
      "[2024-1-1 10:0:0;42;60;3300;200;0;255]\n[2024-1-1 10:0:1;42;60;3300;200;0;255]"
      = BatchResult.ok
        (runGood emptySt (batchRecords
          "[2024-1-1 10:0:0;42;60;3300;200;0;255]\n[2024-1-1 10:0:1;42;60;3300;200;0;255]"))
        (batchRecords
          "[2024-1-1 10:0:0;42;60;3300;200;0;255]\n[2024-1-1 10:0:1;42;60;3300;200;0;255]").length
    ∧ ProcessTicks emptySt
        "[2024-1-1 10:0:0;42;60;3300;200;0;255]\n[bad-record]\n[2024-1-1 10:0:1;42;60;3300;200;0;255]"
        = BatchResult.failed
          (runGood emptySt ["[2024-1-1 10:0:0;42;60;3300;200;0;255]"]) := by
  constructor
  · refine C1_batch_order_and_abort.1 emptySt _ ?_
    intro r hr
    rw [show batchRecords
        "[2024-1-1 10:0:0;42;60;3300;200;0;255]\n[2024-1-1 10:0:1;42;60;3300;200;0;255]"
      = ["[2024-1-1 10:0:0;42;60;3300;200;0;255]",
         "[2024-1-1 10:0:1;42;60;3300;200;0;255]"] from by decide] at hr
    rcases List.mem_cons.mp hr with h | h
    · subst h
      exact ⟨⟨⟨2024, 1, 1, 10, 0, 0⟩, 42, "60", "3300", "200", "0", "255", ""⟩,
        by decide⟩
    · rw [List.mem_singleton.mp h]
      exact ⟨⟨⟨2024, 1, 1, 10, 0, 1⟩, 42, "60", "3300", "200", "0", "255", ""⟩,
        by decide⟩
  · refine C1_batch_order_and_abort.2.1 emptySt _
      ["[2024-1-1 10:0:0;42;60;3300;200;0;255]"] "[bad-record]"
      ["[2024-1-1 10:0:1;42;60;3300;200;0;255]"] (by decide) ?_ (by decide)
    intro r hr
    rw [List.mem_singleton.mp hr]
    exact ⟨⟨⟨2024, 1, 1, 10, 0, 0⟩, 42, "60", "3300", "200", "0", "255", ""⟩,
      by decide⟩

/-! ### Sorted-set range queries -/

instance : IsTotal (String × Int) entryLE :=
  ⟨by
    intro a b
    unfold entryLE
    rcases lt_trichotomy a.2 b.2 with h | h | h
    · exact Or.inl (Or.inl h)
    · rcases le_total a.1 b.1 with h1 | h1
      · exact Or.inl (Or.inr ⟨h, h1⟩)
      · exact Or.inr (Or.inr ⟨h.symm, h1⟩)
    · exact Or.inr (Or.inl h)⟩

instance : IsTrans (String × Int) entryLE :=
  ⟨by
    intro a b c hab hbc
    unfold entryLE at hab hbc ⊢
    rcases hab with h1 | ⟨h1, h1'⟩ <;> rcases hbc with h2 | ⟨h2, h2'⟩
    · exact Or.inl (h1.trans h2)
    · exact Or.inl (h2 ▸ h1)
    · exact Or.inl (h1 ▸ h2)
    · exact Or.inr ⟨h1.trans h2, h1'.trans h2'⟩⟩

lemma zrevEntries_sorted (s : SortedSet) :
    List.Sorted (fun p q : String × Int => q.2 ≤ p.2) (zrevEntries s) := by
  unfold zrevEntries
  have h := List.sorted_insertionSort entryLE s
  have h2 : (List.insertionSort entryLE s).reverse.Pairwise
      (fun a b => entryLE b a) := List.pairwise_reverse.mpr h
  refine h2.imp ?_
  intro a b hba
  rcases hba with h0 | ⟨h0, _⟩
  · exact le_of_lt h0
  · exact le_of_eq h0

lemma zrevEntries_length (s : SortedSet) :
    (zrevEntries s).length = zcard s := by
  unfold zrevEntries zcard
  rw [List.length_reverse, (List.perm_insertionSort entryLE s).length_eq]

lemma redisSlice_sublist {α : Type} (l : List α) (a b : Int) :
    (redisSlice l a b).Sublist l := by
  unfold redisSlice
  dsimp only
  split_ifs <;>
    first
      | exact List.nil_sublist l
      | exact (List.take_sublist _ _).trans (List.drop_sublist _ _)

lemma zrevrangeEntries_sorted (s : SortedSet) (a b : Int) :
    List.Sorted (fun p q : String × Int => q.2 ≤ p.2)
      (zrevrangeEntries s a b) :=
  List.Pairwise.sublist (redisSlice_sublist (zrevEntries s) a b)
    (zrevEntries_sorted s)

lemma redisSlice_all {α : Type} (l : List α) (stop : Int) (h0 : 0 ≤ stop)
    (hstop : (l.length : Int) - 1 ≤ stop) : redisSlice l 0 stop = l := by
  unfold redisSlice
  dsimp only
  rw [if_neg (show ¬((0 : Int) < 0) by norm_num), if_neg (not_lt.mpr h0)]
  cases l with
  | nil =>
    rw [if_pos (Or.inr (by simp))]
  | cons x xs =>
    rw [if_neg (by
      push_neg
      constructor
      · omega
      · simp only [List.length_cons]
        omega)]
    rw [min_eq_right (by simpa using hstop)]
    rw [show ((((x :: xs).length : Nat) : Int) - 1 - 0 + 1)
      = ((x :: xs).length : Int) by ring]
    simp

lemma zrevrange_all (s : SortedSet) (stop : Int) (h0 : 0 ≤ stop)
    (hstop : (zcard s : Int) - 1 ≤ stop) :
    zrevrange s 0 stop = (zrevEntries s).map Prod.fst := by
  unfold zrevrange zrevrangeEntries
  rw [redisSlice_all _ _ h0 (by rw [zrevEntries_length]; exact hstop)]

set_option maxRecDepth 40000 in
/-- C5: queryByRank serves the sensor's stored ticks newest first —
the fetched entries are sorted by descending timestamp score for every
state and index range, an open-ended stop index returns everything
through the end, and after appending ticks at T1 < T2 < T3 for sensor
42, queryByRank(42, 0, 0) returns exactly the T3 tick (and the
open-ended default stop 9999999999 returns T3, T2, T1). -/
theorem C5_queryByRank_newest_first :
    (∀ (st : St) (sid startIndex stopIndex : Int),
      List.Sorted (fun p q : String × Int => q.2 ≤ p.2)
        (zrevrangeEntries (st.sensorTicks sid) startIndex stopIndex)
      ∧ queryTicksByRank st sid startIndex stopIndex
          = (zrevrangeEntries (st.sensorTicks sid) startIndex stopIndex).map
              Prod.fst)
    ∧ (∀ (st : St) (sid stopIndex : Int), 0 ≤ stopIndex →
        (countTicks st sid : Int) - 1 ≤ stopIndex →
        queryTicksByRank st sid 0 stopIndex
            = (zrevEntries (st.sensorTicks sid)).map Prod.fst
          ∧ (queryTicksByRank st sid 0 stopIndex).length = countTicks st sid)
    ∧ (let t1 : Tick := ⟨⟨2024, 1, 1, 10, 0, 0⟩, 42, "60", "3300", "200", "0", "255", ""⟩
       let t2 : Tick := ⟨⟨2024, 1, 1, 10, 0, 1⟩, 42, "60", "3300", "200", "0", "255", ""⟩
       let t3 : Tick := ⟨⟨2024, 1, 1, 10, 0, 2⟩, 42, "60", "3300", "200", "0", "255", ""⟩
       let st := saveTick (saveTick (saveTick emptySt t1) t2) t3
       t1.rank < t2.rank ∧ t2.rank < t3.rank
       ∧ queryTicksByRank st 42 0 0 = [marshalTick t3]
       ∧ queryTicksByRank st 42 0 9999999999
           = [marshalTick t3, marshalTick t2, marshalTick t1]) := by
  refine ⟨fun st sid a b => ⟨zrevrangeEntries_sorted _ a b, rfl⟩,
    fun st sid stopIndex h0 hstop => ?_, by decide⟩
  have h := zrevrange_all (st.sensorTicks sid) stopIndex h0 hstop
  refine ⟨h, ?_⟩
  show (zrevrange (st.sensorTicks sid) 0 stopIndex).length = countTicks st sid
  rw [h, List.length_map, zrevEntries_length]
  rfl

/-- Witness for C5's open-ended clause at a concrete two-tick store. -/
theorem C5_queryByRank_newest_first_witness :
    queryTicksByRank ⟨[(42, [("m1", 5), ("m2", 9)])], [], [], []⟩ 42 0 9999999999
        = (zrevEntries ((⟨[(42, [("m1", 5), ("m2", 9)])], [], [], []⟩ : St).sensorTicks 42)).map
            Prod.fst
      ∧ (queryTicksByRank ⟨[(42, [("m1", 5), ("m2", 9)])], [], [], []⟩ 42 0
          9999999999).length
        = countTicks ⟨[(42, [("m1", 5), ("m2", 9)])], [], [], []⟩ 42 :=
  C5_queryByRank_newest_first.2.1 ⟨[(42, [("m1", 5), ("m2", 9)])], [], [], []⟩
    42 9999999999 (by norm_num) (by decide)

end OSP
